import Mathlib

/-!
Verification of the CutClipAI highlight-selection and clip-rendering engine.

The Python source is embedded shallowly: floating-point times and scores
become exact rationals (`ℚ`), Python dicts for segments/moments/words become
structures, and the stateful worker/pool code becomes pure functions over
explicit abstractions of their collaborators (render outcomes, pipeline
outcomes, completion orders).  Purely diagnostic fields of the source
(`score_breakdown`, `llm_reason`, log lines) are omitted; they do not feed
back into any control flow or output modelled here.
-/

/-- A word-level timestamp entry, from the `words` dicts used by
`ScoringService._score_tempo_variation` (`word_info.get("start"/"end")`). -/
structure Word where
  start : ℚ
  end_ : ℚ
deriving DecidableEq, Repr

/-- A transcription segment dict: `{"start", "end", "text", "words"}`. -/
structure Segment where
  start : ℚ
  end_ : ℚ
  text : String
  words : List Word
deriving DecidableEq, Repr

/-- A candidate/selected moment dict as built by
`ScoringService._find_continuous_speech_moments`:
`{"start", "end", "score", "text"}` (diagnostic fields omitted). -/
structure Moment where
  start : ℚ
  end_ : ℚ
  score : ℚ
  text : String
deriving DecidableEq, Repr

/-- Python's `str.strip()` on the segment text (whitespace on both ends). -/
def pyStrip (s : String) : String :=
  String.mk (((s.toList.dropWhile Char.isWhitespace).reverse.dropWhile
    Char.isWhitespace).reverse)

/-- Python's `text.endswith(suffix)` for one suffix string: the last
`len(suffix)` characters of `text` equal the suffix. -/
def pyEndsWith (s suffix : String) : Bool :=
  s.toList.drop (s.toList.length - suffix.toList.length) == suffix.toList

/-- `prev_text.endswith((".", "!", "?", "â€¦"))` from
`_find_continuous_speech_moments` (scoring.py line 167).  The committed
source is double-encoded at this spot: the fourth tuple element is the
three-character mojibake sequence `â€¦` (U+00E2 U+20AC U+00A6), not the
ellipsis `…` (U+2026), so at run time the program treats text ending in
those three characters as terminal and does **not** recognise a real
`…`. -/
def endsWithTerminalPunct (s : String) : Bool :=
  pyEndsWith s "." || pyEndsWith s "!" || pyEndsWith s "?" ||
  pyEndsWith s "â€¦"

/-- The `should_stop` computation of the inner extension loop of
`ScoringService._find_continuous_speech_moments` (scoring.py lines 152-179),
with `max_pause = 2.0` hard-coded as in the source.  The source's
`if pause > 0.5: ... elif duration >= min: ...` ladder is written as the
equivalent disjunction (`a or (not a and b)` = `a or b`). -/
def shouldStop (minDur maxDur clipStart : ℚ) (prev cur : Segment) : Bool :=
  decide (2 < cur.start - prev.end_) ||
  decide (maxDur - 2 ≤ cur.end_ - clipStart) ||
  (decide (pyStrip prev.text ≠ "") &&
   endsWithTerminalPunct (pyStrip prev.text) &&
    (decide ((1 : ℚ)/2 < cur.start - prev.end_) ||
     (decide (minDur ≤ cur.end_ - clipStart) &&
      (decide ((3 : ℚ)/10 < cur.start - prev.end_) ||
       decide ((25 : ℚ) ≤ cur.end_ - clipStart)))))

/-- The inner `while j < len(segments)` loop: returns the segments folded
into the current window after its seed, and the unconsumed remainder. -/
def extendWindow (minDur maxDur clipStart : ℚ) (prev : Segment) :
    List Segment → List Segment × List Segment
  | [] => ([], [])
  | cur :: rest =>
    if shouldStop minDur maxDur clipStart prev cur then ([], cur :: rest)
    else
      let p := extendWindow minDur maxDur clipStart cur rest
      (cur :: p.1, p.2)

/-- Python's `" ".join(texts)`. -/
def joinTexts : List String → String
  | [] => ""
  | [t] => t
  | t :: rest => t ++ " " ++ joinTexts rest

/-- The outer `while i < len(segments)` loop of
`_find_continuous_speech_moments`, with fuel equal to the number of
segments (each iteration consumes at least one segment, so the fuel never
runs out on the wrapper's call).  `scoreFn` abstracts
`self._calculate_score(combined_segment, ...)` together with the captured
`total_duration` and `llm_analysis`; the score does not influence which
windows are formed. -/
def findMomentsGo (scoreFn : Segment → ℚ) (minDur maxDur : ℚ) :
    Nat → List Segment → List Moment
  | 0, _ => []
  | _, [] => []
  | fuel + 1, s :: rest =>
    let ew := extendWindow minDur maxDur s.start s rest
    let clipSegs := s :: ew.1
    let clipEnd := (ew.1.getLastD s).end_
    let tail := findMomentsGo scoreFn minDur maxDur fuel ew.2
    if minDur ≤ clipEnd - s.start then
      { start := s.start
        end_ := clipEnd
        score := scoreFn
          { start := s.start
            end_ := clipEnd
            text := joinTexts (clipSegs.map Segment.text)
            words := (clipSegs.map Segment.words).flatten }
        text := joinTexts (clipSegs.map Segment.text) } :: tail
    else tail

/-- `ScoringService._find_continuous_speech_moments(segments)`. -/
def findMoments (scoreFn : Segment → ℚ) (minDur maxDur : ℚ)
    (segments : List Segment) : List Moment :=
  findMomentsGo scoreFn minDur maxDur segments.length segments

lemma getLastD_mem_or {α : Type} : ∀ (l : List α) (a : α),
    l.getLastD a = a ∨ l.getLastD a ∈ l := by
  intro l
  induction l with
  | nil => intro a; left; rfl
  | cons b l ih =>
    intro a
    rw [List.getLastD_cons]
    rcases ih b with h | h
    · right; rw [h]; exact List.mem_cons_self b l
    · right; exact List.mem_cons_of_mem b h

lemma extendWindow_fst_bound (minDur maxDur clipStart : ℚ) :
    ∀ (l : List Segment) (prev : Segment) (c : Segment),
      c ∈ (extendWindow minDur maxDur clipStart prev l).1 →
      c.end_ - clipStart < maxDur - 2 := by
  intro l
  induction l with
  | nil => intro prev c hc; simp [extendWindow] at hc
  | cons cur rest ih =>
    intro prev c hc
    by_cases hstop : shouldStop minDur maxDur clipStart prev cur
    · simp [extendWindow, hstop] at hc
    · simp only [extendWindow] at hc
      rw [if_neg hstop, List.mem_cons] at hc
      rcases hc with rfl | hc
      · have : ¬ (maxDur - 2 ≤ c.end_ - clipStart) := by
          intro hle
          apply hstop
          simp only [shouldStop, Bool.or_eq_true, decide_eq_true_iff]
          exact Or.inl (Or.inr hle)
        linarith [not_le.mp this]
      · exact ih cur c hc

lemma extendWindow_snd_sublist (minDur maxDur clipStart : ℚ) :
    ∀ (l : List Segment) (prev : Segment),
      (extendWindow minDur maxDur clipStart prev l).2.Sublist l := by
  intro l
  induction l with
  | nil => intro prev; simp [extendWindow]
  | cons cur rest ih =>
    intro prev
    by_cases hstop : shouldStop minDur maxDur clipStart prev cur
    · simp [extendWindow, hstop]
    · simp only [extendWindow, hstop, if_false]
      exact (ih cur).cons cur

lemma findMomentsGo_bounds (scoreFn : Segment → ℚ) (minDur maxDur : ℚ) :
    ∀ (fuel : Nat) (segs : List Segment) (m : Moment),
      m ∈ findMomentsGo scoreFn minDur maxDur fuel segs →
      minDur ≤ m.end_ - m.start ∧
        (m.end_ - m.start < maxDur - 2 ∨
          ∃ s ∈ segs, m.start = s.start ∧ m.end_ = s.end_) := by
  intro fuel
  induction fuel with
  | zero => intro segs m hm; simp [findMomentsGo] at hm
  | succ fuel ih =>
    intro segs m hm
    cases segs with
    | nil => simp [findMomentsGo] at hm
    | cons s rest =>
      simp only [findMomentsGo] at hm
      by_cases hemit :
          minDur ≤ (( (extendWindow minDur maxDur s.start s rest).1.getLastD s).end_) - s.start
      · rw [if_pos hemit] at hm
        rcases List.mem_cons.mp hm with rfl | hm
        · refine ⟨hemit, ?_⟩
          rcases getLastD_mem_or (extendWindow minDur maxDur s.start s rest).1 s with
            heq | hmemw
          · right
            exact ⟨s, List.mem_cons_self s rest, rfl, by rw [heq]⟩
          · left
            exact extendWindow_fst_bound minDur maxDur s.start rest s _ hmemw
        · rcases ih _ m hm with ⟨h1, h2⟩
          refine ⟨h1, ?_⟩
          rcases h2 with h2 | ⟨s', hs', hstart, hend⟩
          · exact Or.inl h2
          · refine Or.inr ⟨s', ?_, hstart, hend⟩
            exact List.mem_cons_of_mem s
              ((extendWindow_snd_sublist minDur maxDur s.start rest s).subset hs')
      · rw [if_neg hemit] at hm
        rcases ih _ m hm with ⟨h1, h2⟩
        refine ⟨h1, ?_⟩
        rcases h2 with h2 | ⟨s', hs', hstart, hend⟩
        · exact Or.inl h2
        · refine Or.inr ⟨s', ?_, hstart, hend⟩
          exact List.mem_cons_of_mem s
            ((extendWindow_snd_sublist minDur maxDur s.start rest s).subset hs')

/-- Claim C1, counterexample: a single input segment of duration 100 s with
`minClipDuration = 15`, `maxClipDuration = 45` is emitted as a moment of
duration 100 s, violating `end - start <= maxClipDuration`. -/
theorem C1_counterexample :
    (findMoments (fun _ => 0) 15 45
        [{ start := 0, end_ := 100, text := "hello", words := [] }]).map
      (fun m => m.end_ - m.start) = [100] ∧ ¬ ((100 : ℚ) ≤ 45) := by
  constructor
  · with_unfolding_all decide
  · with_unfolding_all decide

/-- Claim C1 (amended): every moment emitted by the segment merger satisfies
`minClipDuration <= end - start`; the upper bound can only fail for a moment
whose endpoints coincide with a single input segment (a lone over-long
segment is emitted as-is) — any moment not of that shape satisfies
`end - start < maxClipDuration - 2 <= maxClipDuration`. -/
theorem C1_merged_moment_duration (scoreFn : Segment → ℚ)
    (minDur maxDur : ℚ) (segs : List Segment) (m : Moment)
    (hm : m ∈ findMoments scoreFn minDur maxDur segs) :
    minDur ≤ m.end_ - m.start ∧
      (m.end_ - m.start < maxDur - 2 ∨
        ∃ s ∈ segs, m.start = s.start ∧ m.end_ = s.end_) :=
  findMomentsGo_bounds scoreFn minDur maxDur segs.length segs m hm

/-- Scenario-A-style concrete input for the C1 witness. -/
def segsA : List Segment :=
  [{ start := 0, end_ := 5, text := "Did you know", words := [] },
   { start := 26/5, end_ := 9, text := "this works?", words := [] }]

/-- The moment the merger emits on `segsA`. -/
def momA : Moment :=
  { start := 0, end_ := 9, score := 0, text := "Did you know this works?" }

set_option maxHeartbeats 1600000 in
/-- Claim C1 witness: scenario-A-style input, two segments merged into one
moment `[0, 9]` with `minClipDuration = 5`, `maxClipDuration = 60`. -/
theorem C1_merged_moment_duration_witness :
    momA ∈ findMoments (fun _ => 0) 5 60 segsA ∧
    (5 ≤ momA.end_ - momA.start ∧
      (momA.end_ - momA.start < 60 - 2 ∨
        ∃ s ∈ segsA, momA.start = s.start ∧ momA.end_ = s.end_)) :=
  ⟨by with_unfolding_all decide,
   C1_merged_moment_duration (fun _ => 0) 5 60 segsA momA
     (by with_unfolding_all decide)⟩

/-- Claim C8, counterexample, refuting both parts of the claim.
(a) The previous segment ends with `"."` and the pause is 0.4 s > 0.3 s,
but the window duration (12 s) is below `minClipDuration = 15`, so the
merger does **not** stop (the source only stops unconditionally for pauses
above 0.5 s).  (b) A previous segment ending with a genuine ellipsis `…`
is not treated as terminal punctuation at all (the source's `endswith`
tuple holds the mojibake `â€¦`, not `…`), so even a 0.6 s pause after it
does not stop the window. -/
theorem C8_counterexample :
    endsWithTerminalPunct
      (pyStrip ({ start := 0, end_ := 10, text := "Hi.", words := [] }
        : Segment).text) = true ∧
    (3 : ℚ)/10 <
      ({ start := 52/5, end_ := 12, text := "x", words := [] }
        : Segment).start -
      ({ start := 0, end_ := 10, text := "Hi.", words := [] }
        : Segment).end_ ∧
    shouldStop 15 45 0
      { start := 0, end_ := 10, text := "Hi.", words := [] }
      { start := 52/5, end_ := 12, text := "x", words := [] } = false ∧
    endsWithTerminalPunct
      (pyStrip ({ start := 0, end_ := 10, text := "Hi…", words := [] }
        : Segment).text) = false ∧
    (1 : ℚ)/2 <
      ({ start := 53/5, end_ := 30, text := "x", words := [] }
        : Segment).start -
      ({ start := 0, end_ := 10, text := "Hi…", words := [] }
        : Segment).end_ ∧
    shouldStop 15 45 0
      { start := 0, end_ := 10, text := "Hi…", words := [] }
      { start := 53/5, end_ := 30, text := "x", words := [] } = false := by
  refine ⟨by decide, by with_unfolding_all decide, by with_unfolding_all decide,
    by decide, by with_unfolding_all decide, by with_unfolding_all decide⟩

/-- Claim C8 (amended): when the previous segment's stripped text is
nonempty and ends with what the program recognises as strong terminal
punctuation — `.`, `!`, `?`, or the mojibake three-character sequence
`â€¦` that stands where the spec says `…` — the extension loop stops if
the pause exceeds 0.5 s; once the window duration has reached
`minClipDuration`, it also stops for any pause exceeding 0.3 s, and for
any window of at least 25 s. -/
theorem C8_punctuation_stop (minDur maxDur clipStart : ℚ)
    (prev cur : Segment)
    (hne : pyStrip prev.text ≠ "")
    (hp : endsWithTerminalPunct (pyStrip prev.text) = true) :
    ((1 : ℚ)/2 < cur.start - prev.end_ →
      shouldStop minDur maxDur clipStart prev cur = true) ∧
    (minDur ≤ cur.end_ - clipStart → (3 : ℚ)/10 < cur.start - prev.end_ →
      shouldStop minDur maxDur clipStart prev cur = true) ∧
    (minDur ≤ cur.end_ - clipStart → (25 : ℚ) ≤ cur.end_ - clipStart →
      shouldStop minDur maxDur clipStart prev cur = true) := by
  refine ⟨?_, ?_, ?_⟩ <;> intros <;>
    simp only [shouldStop, Bool.or_eq_true, Bool.and_eq_true,
      decide_eq_true_iff] <;> tauto

/-- Claim C8 witness: a 0.6 s pause after `"Hi."` stops the window. -/
theorem C8_punctuation_stop_witness :
    shouldStop 15 45 0
      { start := 0, end_ := 10, text := "Hi.", words := [] }
      { start := 53/5, end_ := 12, text := "x", words := [] } = true :=
  (C8_punctuation_stop 15 45 0
      { start := 0, end_ := 10, text := "Hi.", words := [] }
      { start := 53/5, end_ := 12, text := "x", words := [] }
      (by decide) (by decide)).1 (by with_unfolding_all decide)

/-- The positive per-word durations collected by the loop in
`ScoringService._score_tempo_variation` (`if duration > 0:
word_durations.append(duration)`). -/
def positiveDurations (words_data : List Word) : List ℚ :=
  (words_data.map fun w => w.end_ - w.start).filter fun d => 0 < d

/-- `ScoringService._score_tempo_variation(words_data)` (scoring.py lines
394-428). -/
def score_tempo_variation (words_data : List Word) : ℚ :=
  if words_data.length < 5 then 5
  else
    let word_durations := positiveDurations words_data
    if word_durations.length < 3 then 5
    else
      let avg_duration := word_durations.sum / (word_durations.length : ℚ)
      let variations := word_durations.map fun d => |d - avg_duration|
      let avg_variation := variations.sum / (variations.length : ℚ)
      let relVariation := avg_variation / max avg_duration (1/100)
      min (relVariation * 15) 10

/-- The tempo-variation subscore as the spec's words describe it: the mean
absolute deviation of the per-word durations from their mean, scaled by 15
and capped at 10, with a neutral 5.0 below 5 timed words.  Stated only to
be compared against `score_tempo_variation`, which is what the source
computes. -/
def tempoVariationClaimed (words_data : List Word) : ℚ :=
  if words_data.length < 5 then 5
  else
    let ds := words_data.map fun w => w.end_ - w.start
    let avg := ds.sum / (ds.length : ℚ)
    min ((ds.map fun d => |d - avg|).sum / (ds.length : ℚ) * 15) 10

/-- Five words with durations 0.1, 0.3, 0.1, 0.3, 0.1 s: the C9
counterexample input. -/
def wordsC9 : List Word :=
  [{ start := 0, end_ := 1/10 }, { start := 1/10, end_ := 2/5 },
   { start := 2/5, end_ := 1/2 }, { start := 1/2, end_ := 4/5 },
   { start := 4/5, end_ := 9/10 }]

/-- Claim C9, counterexample: on five words with durations
`0.1, 0.3, 0.1, 0.3, 0.1` the source computes 8 (it divides the mean
absolute deviation by the mean duration before scaling by 15), while the
claimed formula (mean absolute deviation × 15, capped) gives 1.44. -/
theorem C9_counterexample :
    score_tempo_variation wordsC9 = 8 ∧
    tempoVariationClaimed wordsC9 = 36/25 ∧
    (8 : ℚ) ≠ 36/25 := by
  refine ⟨?_, ?_, ?_⟩ <;> with_unfolding_all decide

/-- Claim C9 (amended): with at least 5 word entries and at least 3 of them
having positive duration, the tempo-variation subscore is the mean absolute
deviation of the positive per-word durations from their mean, **divided by
`max(mean, 0.01)`**, scaled by 15 and capped at 10; it is the neutral 5.0
when fewer than 5 word entries are supplied (and also when fewer than 3
positive durations remain). -/
theorem C9_tempo_variation (words_data : List Word) :
    (words_data.length < 5 → score_tempo_variation words_data = 5) ∧
    (¬ words_data.length < 5 → (positiveDurations words_data).length < 3 →
      score_tempo_variation words_data = 5) ∧
    (¬ words_data.length < 5 → ¬ (positiveDurations words_data).length < 3 →
      score_tempo_variation words_data =
        min ((((positiveDurations words_data).map fun d =>
            |d - (positiveDurations words_data).sum /
              ((positiveDurations words_data).length : ℚ)|).sum /
           ((positiveDurations words_data).length : ℚ) /
          max ((positiveDurations words_data).sum /
            ((positiveDurations words_data).length : ℚ)) (1/100)) * 15) 10) := by
  refine ⟨fun h5 => by simp [score_tempo_variation, h5],
    fun h5 h3 => by simp [score_tempo_variation, h5, h3], fun h5 h3 => ?_⟩
  simp only [score_tempo_variation, h5, h3, if_false, List.length_map]

/-- Claim C9 witness: the amended formula evaluated on `wordsC9`. -/
theorem C9_tempo_variation_witness :
    score_tempo_variation wordsC9 =
      min ((((positiveDurations wordsC9).map fun d =>
          |d - (positiveDurations wordsC9).sum /
            ((positiveDurations wordsC9).length : ℚ)|).sum /
         ((positiveDurations wordsC9).length : ℚ) /
        max ((positiveDurations wordsC9).sum /
          ((positiveDurations wordsC9).length : ℚ)) (1/100)) * 15) 10 :=
  (C9_tempo_variation wordsC9).2.2 (by decide) (by with_unfolding_all decide)

/-- Python `str.split()` on a list of characters: split on whitespace,
dropping empty pieces (`cur` is the current word, reversed). -/
def splitWordsAux : List Char → List Char → List (List Char)
  | [], cur => if cur.isEmpty then [] else [cur.reverse]
  | c :: rest, cur =>
    if c.isWhitespace then
      if cur.isEmpty then splitWordsAux rest []
      else cur.reverse :: splitWordsAux rest []
    else splitWordsAux rest (c :: cur)

/-- Python `text.lower().split()`. -/
def pyLowerWords (s : String) : List String :=
  (splitWordsAux (s.toList.map Char.toLower) []).map String.mk

/-- `set(text.lower().split())` modelled as a deduplicated list. -/
def wordSet (s : String) : List String := (pyLowerWords s).dedup

/-- The similarity computed in `ScoringService._select_diverse_clips`:
`len(candidate_words & selected_words) / max(len(candidate_words), 1)`. -/
def similarity (candidate selected : Moment) : ℚ :=
  ((wordSet candidate.text).filter
      (fun w => w ∈ wordSet selected.text)).length /
    ((max (wordSet candidate.text).length 1 : Nat) : ℚ)

/-- One iteration of the `for candidate in clips[1:]` loop of
`_select_diverse_clips`: stop appending once `max_clips` are selected;
append the candidate iff it is diverse from every already-selected clip. -/
def selStep (max_clips : Nat) (selected : List Moment)
    (candidate : Moment) : List Moment :=
  if max_clips ≤ selected.length then selected
  else if ∀ s ∈ selected,
      ¬ (1/2 < similarity candidate s ∧ |candidate.start - s.start| < 120)
    then selected ++ [candidate]
  else selected

/-- `ScoringService._select_diverse_clips(clips, max_clips)` (scoring.py
lines 526-572).  The `[]` branch of the match is unreachable: it is only
taken when `clips` is empty, and then `clips.length <= max_clips` already
returned. -/
def select_diverse_clips (clips : List Moment) (max_clips : Nat) :
    List Moment :=
  if clips.length ≤ max_clips then clips
  else
    match clips with
    | [] => []
    | c0 :: rest => rest.foldl (selStep max_clips) [c0]

lemma selFold_length_le (max_clips : Nat) :
    ∀ (rest : List Moment) (sel : List Moment),
      sel.length ≤ max_clips →
      (rest.foldl (selStep max_clips) sel).length ≤ max_clips := by
  intro rest
  induction rest with
  | nil => intro sel h; simpa using h
  | cons c rest ih =>
    intro sel h
    rw [List.foldl_cons]
    apply ih
    unfold selStep
    split
    · exact h
    · split
      · rename_i hlt _
        have : sel.length < max_clips := Nat.lt_of_not_le hlt
        simpa using this
      · exact h

lemma selFold_pairwise (max_clips : Nat) :
    ∀ (rest : List Moment) (sel : List Moment),
      sel.Pairwise (fun a b =>
        ¬ (1/2 < similarity b a ∧ |b.start - a.start| < 120)) →
      (rest.foldl (selStep max_clips) sel).Pairwise (fun a b =>
        ¬ (1/2 < similarity b a ∧ |b.start - a.start| < 120)) := by
  intro rest
  induction rest with
  | nil => intro sel h; simpa using h
  | cons c rest ih =>
    intro sel h
    rw [List.foldl_cons]
    apply ih
    unfold selStep
    split
    · exact h
    · split
      · rename_i hdiv
        rw [List.pairwise_append]
        exact ⟨h, List.pairwise_singleton _ _,
          fun a ha b hb => by
            rw [List.mem_singleton] at hb
            subst hb
            exact hdiv a ha⟩
      · exact h

/-- Two near-identical moments for the C2 counterexample. -/
def momDupA : Moment :=
  { start := 0, end_ := 20, score := 9, text := "hello world hello" }

/-- Second near-identical moment, 10 s after the first. -/
def momDupB : Moment :=
  { start := 10, end_ := 30, score := 8, text := "hello world hello" }

/-- Claim C2, counterexample: with `k = 3` and only two (identically-worded,
temporally adjacent) input moments, `_select_diverse_clips` returns its
input unchanged — both moments survive although their similarity is 1 > 0.5
and their start-time distance is 10 s < 120 s, so the claimed pairwise
diversity of the output fails. -/
theorem C2_counterexample :
    select_diverse_clips [momDupA, momDupB] 3 = [momDupA, momDupB] ∧
    momDupA ≠ momDupB ∧
    1/2 < similarity momDupB momDupA ∧
    |momDupB.start - momDupA.start| < 120 := by
  refine ⟨?_, ?_, ?_, ?_⟩ <;> with_unfolding_all decide

/-- Claim C2 (amended): the diverse selector returns its input unchanged
whenever the input has at most `k` moments (so no diversity property holds
there); when the input has more than `k` moments, the output has at most
`k` moments (for `k >= 1`; `k = 0` still yields the top clip) and any
later-accepted moment is non-duplicate of every earlier-accepted one:
never both similarity above 0.5 and start-time distance below 120 s. -/
theorem C2_diverse_selection (clips : List Moment) (k : Nat) :
    (clips.length ≤ k → select_diverse_clips clips k = clips) ∧
    (1 ≤ k → (select_diverse_clips clips k).length ≤ k) ∧
    (k < clips.length →
      (select_diverse_clips clips k).Pairwise (fun a b =>
        ¬ (1/2 < similarity b a ∧ |b.start - a.start| < 120))) := by
  refine ⟨fun hle => by simp [select_diverse_clips, hle], ?_, ?_⟩
  · intro hk
    by_cases hle : clips.length ≤ k
    · rw [select_diverse_clips.eq_def, if_pos hle]
      exact hle
    · rw [select_diverse_clips.eq_def, if_neg hle]
      cases clips with
      | nil => simp at hle
      | cons c0 rest =>
        exact selFold_length_le k rest [c0] (by simpa using hk)
  · intro hlt
    have hle : ¬ clips.length ≤ k := Nat.not_le.mpr hlt
    rw [select_diverse_clips.eq_def, if_neg hle]
    cases clips with
    | nil => simp at hlt
    | cons c0 rest =>
      exact selFold_pairwise k rest [c0] (List.pairwise_singleton _ _)

/-- Three concrete moments (two near-duplicates) for the C2 witness. -/
def clipsC2 : List Moment :=
  [{ start := 0, end_ := 20, score := 9, text := "the quick brown fox" },
   { start := 30, end_ := 50, score := 8, text := "the quick brown dog" },
   { start := 300, end_ := 320, score := 7, text := "something else here" }]

/-- Claim C2 witness: on three moments with `k = 2` the selector keeps at
most 2 and the accepted pair is diverse. -/
theorem C2_diverse_selection_witness :
    (1 ≤ 2 → (select_diverse_clips clipsC2 2).length ≤ 2) ∧
    (2 < clipsC2.length →
      (select_diverse_clips clipsC2 2).Pairwise (fun a b =>
        ¬ (1/2 < similarity b a ∧ |b.start - a.start| < 120))) :=
  ⟨(C2_diverse_selection clipsC2 2).2.1, (C2_diverse_selection clipsC2 2).2.2⟩

/-- A clip's duration-validation outcome in
`VideoPipeline.process_optimized_async.process_single_clip`
(pipeline.py lines 240-263): over-long or far-too-short clips are skipped,
slightly-short clips are processed with a warning, in-range clips are
processed. -/
inductive ClipDecision where
  | skip
  | acceptWithWarning
  | accept
deriving DecidableEq, Repr

/-- The validation prologue of `process_single_clip`:
`if clip_duration > max_duration: skip`, then
`if clip_duration < min_duration:` accept with a warning when
`clip_duration >= min_duration - 5.0`, otherwise skip. -/
def clipValidation (minDur maxDur d : ℚ) : ClipDecision :=
  if maxDur < d then .skip
  else if d < minDur then
    if minDur - 5 ≤ d then .acceptWithWarning else .skip
  else .accept

/-- Abstraction of one render attempt (`create_optimized_clip` plus the
output-file check): it succeeds with a path, returns falsy/missing-file,
or raises an exception. -/
inductive RenderOutcome where
  | ok (path : String)
  | fail
  | raises
deriving DecidableEq, Repr

/-- `process_single_clip(idx, moment)` as a pure function of the abstract
render outcome: `none` models the `return None, None` paths (validation
skip, failed render, and the `except Exception` handler that catches a
raising render), `some (idx, path)` models the successful return. -/
def process_single_clip (minDur maxDur : ℚ) (outcome : RenderOutcome)
    (idx : Nat) (m : Moment) : Option (Nat × String) :=
  if clipValidation minDur maxDur (m.end_ - m.start) = .skip then none
  else
    match outcome with
    | .ok path => some (idx, path)
    | .fail => none
    | .raises => none

/-- Claim C5: with `minDuration <= maxDuration`, a duration above
`maxDuration` or below `minDuration - 5` skips the job (no clip, no
pipeline failure); a duration in `[minDuration - 5, minDuration)` is
accepted with a warning and rendered; a duration in
`[minDuration, maxDuration]` is rendered. -/
theorem C5_duration_validation (minDur maxDur : ℚ) (m : Moment) (idx : Nat)
    (path : String) (hmm : minDur ≤ maxDur) :
    ((maxDur < m.end_ - m.start ∨ m.end_ - m.start < minDur - 5) →
      clipValidation minDur maxDur (m.end_ - m.start) = .skip ∧
      ∀ outcome, process_single_clip minDur maxDur outcome idx m = none) ∧
    ((minDur - 5 ≤ m.end_ - m.start ∧ m.end_ - m.start < minDur) →
      clipValidation minDur maxDur (m.end_ - m.start) = .acceptWithWarning ∧
      process_single_clip minDur maxDur (.ok path) idx m = some (idx, path)) ∧
    ((minDur ≤ m.end_ - m.start ∧ m.end_ - m.start ≤ maxDur) →
      clipValidation minDur maxDur (m.end_ - m.start) = .accept ∧
      process_single_clip minDur maxDur (.ok path) idx m = some (idx, path)) := by
  set d := m.end_ - m.start with hd
  refine ⟨?_, ?_, ?_⟩
  · rintro (h | h)
    · have hv : clipValidation minDur maxDur d = .skip := by
        rw [clipValidation, if_pos h]
      exact ⟨hv, fun outcome => by
        rw [process_single_clip.eq_def, ← hd, if_pos hv]⟩
    · have hv : clipValidation minDur maxDur d = .skip := by
        rw [clipValidation, if_neg (by linarith), if_pos (by linarith),
          if_neg (by linarith)]
      exact ⟨hv, fun outcome => by
        rw [process_single_clip.eq_def, ← hd, if_pos hv]⟩
  · rintro ⟨h1, h2⟩
    have hv : clipValidation minDur maxDur d = .acceptWithWarning := by
      rw [clipValidation, if_neg (by linarith), if_pos h2, if_pos h1]
    exact ⟨hv, by
      rw [process_single_clip.eq_def, ← hd, if_neg (by rw [hv]; intro h; cases h)]⟩
  · rintro ⟨h1, h2⟩
    have hv : clipValidation minDur maxDur d = .accept := by
      rw [clipValidation, if_neg (by linarith), if_neg (by linarith)]
    exact ⟨hv, by
      rw [process_single_clip.eq_def, ← hd, if_neg (by rw [hv]; intro h; cases h)]⟩

/-- Claim C5 witness: a 20 s moment with `minDuration = 15`,
`maxDuration = 45` is validated and rendered. -/
theorem C5_duration_validation_witness :
    (((15 : ℚ) ≤ ({ start := 0, end_ := 20, score := 0, text := "t" }
          : Moment).end_ -
        ({ start := 0, end_ := 20, score := 0, text := "t" }
          : Moment).start ∧
      ({ start := 0, end_ := 20, score := 0, text := "t" }
          : Moment).end_ -
        ({ start := 0, end_ := 20, score := 0, text := "t" }
          : Moment).start ≤ (45 : ℚ)) →
      clipValidation 15 45
          (({ start := 0, end_ := 20, score := 0, text := "t" }
            : Moment).end_ -
           ({ start := 0, end_ := 20, score := 0, text := "t" }
            : Moment).start) = .accept ∧
      process_single_clip 15 45 (.ok "p") 1
          { start := 0, end_ := 20, score := 0, text := "t" } =
        some (1, "p")) ∧
    ((15 : ℚ) ≤ (20 : ℚ) - 0 ∧ (20 : ℚ) - 0 ≤ 45) :=
  ⟨(C5_duration_validation 15 45
      { start := 0, end_ := 20, score := 0, text := "t" } 1 "p"
      (by with_unfolding_all decide)).2.2,
   by with_unfolding_all decide⟩

/-- The per-job result as seen by the `as_completed` collection loop:
the Python code enumerates `best_moments` from 1 and stores
`clip_paths_dict[idx] = path` only for successful jobs. -/
def jobResult (minDur maxDur : ℚ) (moments : List Moment)
    (outcomes : Nat → RenderOutcome) (i : Nat) : Option String :=
  match moments[i - 1]? with
  | some m => (process_single_clip minDur maxDur (outcomes i) i m).map Prod.snd
  | none => none

/-- One step of filling `clip_paths_dict` when the job for index `i`
completes. -/
def dictStep (f : Nat → Option String) (d : List (Nat × String))
    (i : Nat) : List (Nat × String) :=
  match f i with
  | some p => (i, p) :: d
  | none => d

/-- `clip_paths_dict` after all futures completed, in completion order
`order`. -/
def buildDict (f : Nat → Option String) (order : List Nat) :
    List (Nat × String) :=
  order.foldl (dictStep f) []

/-- `clip_paths_dict[i]`. -/
def dictGet (i : Nat) : List (Nat × String) → Option String
  | [] => none
  | (k, v) :: d => if k = i then some v else dictGet i d

/-- `clip_paths = [clip_paths_dict[i] for i in sorted(clip_paths_dict.keys())]`
(pipeline.py line 359): every key in the dict is present, so the
`filterMap` keeps exactly the stored paths, in ascending key order. -/
def finalPaths (d : List (Nat × String)) : List String :=
  ((d.map Prod.fst).insertionSort (· ≤ ·)).filterMap fun i => dictGet i d

/-- The render pool of `process_optimized_async`: dispatch every indexed
moment, collect results in completion order `order` (an arbitrary
permutation of the 1-based job indices), then emit the paths sorted by
original index. -/
def runPool (minDur maxDur : ℚ) (moments : List Moment)
    (outcomes : Nat → RenderOutcome) (order : List Nat) : List String :=
  finalPaths (buildDict (jobResult minDur maxDur moments outcomes) order)

lemma buildDict_keys (f : Nat → Option String) :
    ∀ (order : List Nat) (acc : List (Nat × String)),
      (order.foldl (dictStep f) acc).map Prod.fst =
        (order.filter fun i => (f i).isSome).reverse ++ acc.map Prod.fst := by
  intro order
  induction order with
  | nil => intro acc; simp
  | cons i order ih =>
    intro acc
    rw [List.foldl_cons, List.filter_cons]
    cases hf : f i with
    | some p =>
      rw [ih, dictStep, hf]
      simp [hf]
    | none =>
      rw [ih, dictStep, hf]
      simp [hf]

lemma buildDict_entries (f : Nat → Option String) :
    ∀ (order : List Nat) (acc : List (Nat × String)),
      (∀ q ∈ acc, f q.1 = some q.2) →
      ∀ q ∈ order.foldl (dictStep f) acc, f q.1 = some q.2 := by
  intro order
  induction order with
  | nil => intro acc hacc q hq; exact hacc q hq
  | cons i order ih =>
    intro acc hacc q hq
    rw [List.foldl_cons] at hq
    refine ih _ ?_ q hq
    intro r hr
    rw [dictStep] at hr
    cases hf : f i with
    | some p =>
      rw [hf] at hr
      rcases List.mem_cons.mp hr with rfl | hr
      · exact hf
      · exact hacc r hr
    | none =>
      rw [hf] at hr
      exact hacc r hr

lemma dictGet_eq_of_mem (f : Nat → Option String) :
    ∀ (d : List (Nat × String)) (i : Nat),
      (∀ q ∈ d, f q.1 = some q.2) →
      i ∈ d.map Prod.fst → dictGet i d = f i := by
  intro d
  induction d with
  | nil => intro i _ hi; simp at hi
  | cons kv d ih =>
    intro i hent hi
    obtain ⟨k, v⟩ := kv
    rw [dictGet]
    by_cases hk : k = i
    · subst hk
      rw [if_pos rfl]
      exact (hent (k, v) (List.mem_cons_self _ _)).symm
    · rw [if_neg hk]
      rcases List.mem_cons.mp hi with hik | hi
      · exact absurd hik.symm hk
      · exact ih i (fun q hq => hent q (List.mem_cons_of_mem _ hq)) hi

lemma filterMap_of_filter_isSome (f : Nat → Option String) :
    ∀ (l : List Nat),
      (l.filter fun i => (f i).isSome).filterMap f = l.filterMap f := by
  intro l
  induction l with
  | nil => rfl
  | cons i l ih =>
    rw [List.filter_cons, List.filterMap_cons]
    cases hf : f i with
    | some p => simp [hf, ih]
    | none => simp [hf, ih]

lemma filterMap_congr_of_mem {α β : Type} (l : List α) (g h : α → Option β)
    (hgh : ∀ a ∈ l, g a = h a) : l.filterMap g = l.filterMap h := by
  induction l with
  | nil => rfl
  | cons a l ih =>
    rw [List.filterMap_cons, List.filterMap_cons,
      hgh a (List.mem_cons_self _ _),
      ih fun b hb => hgh b (List.mem_cons_of_mem _ hb)]

lemma sorted_le_range' : ∀ (s n : Nat), List.Sorted (· ≤ ·) (List.range' s n) := by
  intro s n
  induction n generalizing s with
  | zero => exact List.sorted_nil
  | succ n ih =>
    rw [List.range'_succ]
    refine List.sorted_cons.mpr ⟨?_, ih (s + 1)⟩
    intro b hb
    have := (List.mem_range'_1.mp hb).1
    omega

lemma finalPaths_buildDict (f : Nat → Option String) (order : List Nat)
    (n : Nat) (hperm : order.Perm (List.range' 1 n)) :
    finalPaths (buildDict f order) = (List.range' 1 n).filterMap f := by
  have hkeys : (buildDict f order).map Prod.fst =
      (order.filter fun i => (f i).isSome).reverse := by
    rw [buildDict, buildDict_keys]
    simp
  have hent : ∀ q ∈ buildDict f order, f q.1 = some q.2 :=
    buildDict_entries f order [] (by intro q hq; simp at hq)
  have hpermKeys : ((buildDict f order).map Prod.fst).Perm
      ((List.range' 1 n).filter fun i => (f i).isSome) := by
    rw [hkeys]
    exact (List.reverse_perm _).trans (hperm.filter _)
  have hsortEq : ((buildDict f order).map Prod.fst).insertionSort (· ≤ ·) =
      (List.range' 1 n).filter fun i => (f i).isSome := by
    exact List.eq_of_perm_of_sorted
      ((List.perm_insertionSort _ _).trans hpermKeys)
      (List.sorted_insertionSort _ _)
      ((sorted_le_range' 1 n).filter _)
  rw [finalPaths, hsortEq]
  rw [filterMap_congr_of_mem _ (fun i => dictGet i (buildDict f order)) f ?_]
  · exact filterMap_of_filter_isSome f _
  · intro i hi
    refine dictGet_eq_of_mem f _ i hent ?_
    exact hpermKeys.mem_iff.mpr hi

/-- Claim C7: whatever the completion order of the dispatched render jobs
(any permutation of the 1-based job indices), the pipeline's final clip
list equals the successful jobs' paths enumerated in original selection
order. -/
theorem C7_output_order (minDur maxDur : ℚ) (moments : List Moment)
    (outcomes : Nat → RenderOutcome) (order : List Nat)
    (hperm : order.Perm (List.range' 1 moments.length)) :
    runPool minDur maxDur moments outcomes order =
      (List.range' 1 moments.length).filterMap
        (jobResult minDur maxDur moments outcomes) :=
  finalPaths_buildDict _ order moments.length hperm

/-- Two valid moments for the C6/C7 witnesses. -/
def momsPool : List Moment :=
  [{ start := 0, end_ := 20, score := 0, text := "a" },
   { start := 30, end_ := 50, score := 0, text := "b" }]

/-- Outcomes for the C7 witness: both jobs succeed. -/
def outcomesOk : Nat → RenderOutcome :=
  fun i => if i = 1 then .ok "p1" else .ok "p2"

/-- Claim C7 witness: completion order `[2, 1]` still yields paths in
selection order `[p1, p2]`. -/
theorem C7_output_order_witness :
    ([2, 1] : List Nat).Perm (List.range' 1 momsPool.length) ∧
    runPool 15 45 momsPool outcomesOk [2, 1] =
      (List.range' 1 momsPool.length).filterMap
        (jobResult 15 45 momsPool outcomesOk) :=
  ⟨by decide, C7_output_order 15 45 momsPool outcomesOk [2, 1] (by decide)⟩

/-- Claim C6: if the render for job `j` raises, the exception is caught at
the job boundary (`jobResult` is `none`, the skipped result), and the
pipeline output is exactly what the sibling jobs produce, in selection
order — the raising job never removes or perturbs any sibling's result. -/
theorem C6_exception_isolation (minDur maxDur : ℚ) (moments : List Moment)
    (outcomes : Nat → RenderOutcome) (order : List Nat) (j : Nat)
    (hperm : order.Perm (List.range' 1 moments.length))
    (hraise : outcomes j = .raises) :
    jobResult minDur maxDur moments outcomes j = none ∧
    runPool minDur maxDur moments outcomes order =
      (List.range' 1 moments.length).filterMap fun i =>
        if i = j then none
        else jobResult minDur maxDur moments outcomes i := by
  have hjob : jobResult minDur maxDur moments outcomes j = none := by
    rw [jobResult.eq_def, hraise]
    cases moments[j - 1]? with
    | none => rfl
    | some m =>
      show (process_single_clip minDur maxDur .raises j m).map Prod.snd = none
      rw [process_single_clip.eq_def]
      split
      · rfl
      · rfl
  refine ⟨hjob, ?_⟩
  rw [runPool, finalPaths_buildDict _ order moments.length hperm]
  refine filterMap_congr_of_mem _ _ _ ?_
  intro i _
  by_cases hij : i = j
  · subst hij
    rw [if_pos rfl, hjob]
  · rw [if_neg hij]

/-- Outcomes for the C6 witness: job 1 succeeds, job 2 raises. -/
def outcomesRaise : Nat → RenderOutcome :=
  fun i => if i = 1 then .ok "p1" else .raises

/-- Claim C6 witness: job 2 raising is converted to a skipped result and
job 1's clip still comes back. -/
theorem C6_exception_isolation_witness :
    jobResult 15 45 momsPool outcomesRaise 2 = none ∧
    runPool 15 45 momsPool outcomesRaise [2, 1] =
      (List.range' 1 momsPool.length).filterMap fun i =>
        if i = 2 then none else jobResult 15 45 momsPool outcomesRaise i :=
  C6_exception_isolation 15 45 momsPool outcomesRaise [2, 1] 2
    (by decide) (by decide)

/-- The status field of the dict returned by `process_video_task`. -/
inductive TaskStatus where
  | success
  | no_coins
  | error
deriving DecidableEq, Repr

/-- Observable billing effects of one `process_video_task` run: the final
status, the total coins charged via `WalletService.charge_coins`, the total
coins refunded (the worker has no refund call, so this is always 0 by
construction of `process_video_task`), and whether the video pipeline
(download, transcription, segment merging, rendering) was ever entered. -/
structure WorkerRun where
  status : TaskStatus
  charged : Nat
  refunded : Nat
  pipelineStarted : Bool
deriving DecidableEq, Repr

/-- Abstraction of the worker's `try` block: the pipeline either raises
somewhere before the charge (download, transcription, LLM analysis,
rendering), or returns the rendered clip paths, after which the S3 uploads
may still raise. -/
inductive PipelineOutcome where
  | raises
  | ok (clips : List String) (uploadRaises : Bool)
deriving DecidableEq, Repr

/-- `process_video_task(s3_key, user_id)` (worker.py lines 28-196) as a
pure function of the user's coin balance and the pipeline outcome.
`check_balance_for_video_processing` compares the balance against
`MAX_CLIPS_COUNT * COINS_PER_CLIP`; on success the worker charges
`len(clip_paths) * COINS_PER_CLIP` (via `PricingService.calculate_cost`
and `WalletService.charge_coins`, which fails iff the balance is below the
amount); exceptions inside the `try` block produce the `error` status.
No refund is ever issued on any path. -/
def process_video_task (max_clips cost_per_clip : Nat) (balance : Int)
    (outcome : PipelineOutcome) : WorkerRun :=
  if balance < (max_clips * cost_per_clip : Nat) then
    { status := .no_coins, charged := 0, refunded := 0,
      pipelineStarted := false }
  else
    match outcome with
    | .raises =>
      { status := .error, charged := 0, refunded := 0,
        pipelineStarted := true }
    | .ok clips uploadRaises =>
      if balance < (clips.length * cost_per_clip : Nat) then
        { status := .no_coins, charged := 0, refunded := 0,
          pipelineStarted := true }
      else if uploadRaises then
        { status := .error, charged := clips.length * cost_per_clip,
          refunded := 0, pipelineStarted := true }
      else
        { status := .success, charged := clips.length * cost_per_clip,
          refunded := 0, pipelineStarted := true }

/-- Claim C3, counterexample: `maxClipsCount = 3`, `costPerClip = 1`,
balance 10, 2 clips rendered, pipeline completes.  The worker charges
`2 × 1` but refunds 0, not the claimed
`reservedCost − actualCost = 3·1 − 2·1 = 1` — there is no reservation and
no refund call anywhere in the worker. -/
theorem C3_counterexample :
    (process_video_task 3 1 10 (.ok ["a", "b"] false)).status = .success ∧
    (process_video_task 3 1 10 (.ok ["a", "b"] false)).charged = 2 * 1 ∧
    (process_video_task 3 1 10 (.ok ["a", "b"] false)).refunded = 0 ∧
    (0 : Nat) ≠ 3 * 1 - 2 * 1 := by
  refine ⟨?_, ?_, ?_, ?_⟩ <;> decide

/-- Claim C3 (amended): the worker only pre-checks that the balance covers
`maxClipsCount × costPerClip`; nothing is reserved.  When the pipeline
completes and the uploads succeed, it charges exactly
`renderedClipCount × costPerClip` and refunds nothing; when the pipeline
aborts before the charge, it charges nothing and refunds nothing (there is
no reservation to return).  The user's net cost therefore still equals
`renderedClipCount × costPerClip` on success and 0 on an early abort. -/
theorem C3_settlement (max_clips cost_per_clip : Nat) (balance : Int)
    (clips : List String)
    (hbal : ¬ balance < (max_clips * cost_per_clip : Nat)) :
    (¬ balance < (clips.length * cost_per_clip : Nat) →
      process_video_task max_clips cost_per_clip balance (.ok clips false) =
        { status := .success, charged := clips.length * cost_per_clip,
          refunded := 0, pipelineStarted := true }) ∧
    process_video_task max_clips cost_per_clip balance .raises =
      { status := .error, charged := 0, refunded := 0,
        pipelineStarted := true } := by
  constructor
  · intro hcost
    push_cast at hbal hcost
    simp [process_video_task.eq_def, hbal, hcost]
  · push_cast at hbal
    simp [process_video_task.eq_def, hbal]

/-- Claim C3 witness: the amended settlement at the counterexample's
numbers. -/
theorem C3_settlement_witness :
    (¬ (10 : Int) < ((["a", "b"] : List String).length * 1 : Nat) →
      process_video_task 3 1 10 (.ok ["a", "b"] false) =
        { status := .success,
          charged := (["a", "b"] : List String).length * 1,
          refunded := 0, pipelineStarted := true }) ∧
    process_video_task 3 1 10 .raises =
      { status := .error, charged := 0, refunded := 0,
        pipelineStarted := true } :=
  C3_settlement 3 1 10 ["a", "b"] (by decide)

/-- Claim C4: whenever the balance is below
`maxClipsCount × costPerClip`, the worker returns the insufficient-funds
status immediately: nothing is charged, nothing is refunded, and the
pipeline (and hence segment merging and all transcoding work) never
starts, regardless of what the pipeline would have done. -/
theorem C4_balance_precheck (max_clips cost_per_clip : Nat) (balance : Int)
    (outcome : PipelineOutcome)
    (hbal : balance < (max_clips * cost_per_clip : Nat)) :
    process_video_task max_clips cost_per_clip balance outcome =
      { status := .no_coins, charged := 0, refunded := 0,
        pipelineStarted := false } := by
  rw [process_video_task.eq_def, if_pos hbal]

/-- Claim C4 witness: balance 2 against a required 3 × 1 = 3. -/
theorem C4_balance_precheck_witness :
    process_video_task 3 1 2 (.ok ["a"] false) =
      { status := .no_coins, charged := 0, refunded := 0,
        pipelineStarted := false } :=
  C4_balance_precheck 3 1 2 (.ok ["a"] false) (by decide)

/-- Observable behaviour of one `ScoringService.select_best_moments` call:
its return value, whether `LLMAnalysisService.analyze_transcription` was
invoked, and whether any scoring/merging/selection ran. -/
structure SelectRun where
  result : List Moment
  llmCalled : Bool
  scored : Bool
deriving Repr

/-- `ScoringService.select_best_moments(segments)` (scoring.py lines
24-106).  On a non-empty input it calls the LLM collaborator iff
`llm_enabled` (`self.llm_service.enabled`), merges, scores (through
`scoreFn`, which abstracts `_calculate_score` with the captured LLM
analysis and total duration), sorts by score descending (Python's stable
`list.sort(reverse=True)`), and applies `_select_diverse_clips`.  On an
empty input it returns `[]` at once. -/
def select_best_moments (scoreFn : Segment → ℚ) (minDur maxDur : ℚ)
    (max_clips : Nat) (llm_enabled : Bool) (segments : List Segment) :
    SelectRun :=
  if segments.isEmpty then
    { result := [], llmCalled := false, scored := false }
  else
    { result := select_diverse_clips
        ((findMoments scoreFn minDur maxDur segments).insertionSort
          (fun a b => b.score ≤ a.score)) max_clips
      llmCalled := llm_enabled
      scored := true }

/-- Claim C10: calling the moment-selection entry point with an empty
segment list returns an empty list without raising, without invoking the
external relevance collaborator, and without any scoring or selection
running. -/
theorem C10_empty_segments (scoreFn : Segment → ℚ) (minDur maxDur : ℚ)
    (max_clips : Nat) (llm_enabled : Bool) :
    (select_best_moments scoreFn minDur maxDur max_clips llm_enabled
        []).result = [] ∧
    (select_best_moments scoreFn minDur maxDur max_clips llm_enabled
        []).llmCalled = false ∧
    (select_best_moments scoreFn minDur maxDur max_clips llm_enabled
        []).scored = false :=
  ⟨rfl, rfl, rfl⟩
